import Mathlib

/-!
Verification of the `github-contributions-api` HTTP layer (`src/index.ts`).

The file embeds the `GET /v4/:username` Express handler as a pure step
function over an explicit cache state, a clock, and an oracle standing for
`fetchContributionsForQuery`.  The fetch/parse pipeline itself
(`src/fetch.ts`) and the error classes (`src/errors.ts`) are not part of
the available sources; they enter only through the oracle and, where a
claim depends on their text, through definitions modelled from the spec.
-/

namespace GhContrib

/-- Model of the characters JavaScript `parseInt` skips as leading
whitespace (the StrWhiteSpace production, restricted to the ASCII cases
that can occur in a query-string token). -/
def jsWhitespace (c : Char) : Bool :=
  c == ' ' || c == '\t' || c == '\n' || c == '\r' || c == '\x0b' || c == '\x0c'

/-- Exact (unbounded) integer value of a list of decimal digit
characters, most significant first — the mathematical value that
`parseInt` then rounds to an IEEE-754 double. -/
def digitsVal (cs : List Char) : Nat :=
  cs.foldl (fun a c => 10 * a + (c.toNat - 48)) 0

/-- Number of halvings needed to bring a value below `2^53` — the excess
of the bit length over 53, which is the exponent of the rounding unit of
an IEEE-754 double.  The first argument is fuel for structural recursion
and is never exhausted when it is at least the value itself. -/
def roundScaleAux : Nat → Nat → Nat
  | 0, _ => 0
  | fuel + 1, n => if n < 2 ^ 53 then 0 else roundScaleAux fuel (n / 2) + 1

/-- IEEE-754 binary64 rounding (round to nearest, ties to even) of a
nonnegative integer: below `2^53` every integer is exact; above, the
value is rounded at 53 significant bits; a rounded value of `2^1024` or
more overflows to `Infinity`, modelled as `none`. -/
def doubleOfNat (n : Nat) : Option Nat :=
  if n < 2 ^ 53 then some n
  else
    let unit := 2 ^ roundScaleAux n n
    let q := n / unit
    let r := n % unit
    let q2 := if unit < r * 2 ∨ (r * 2 = unit ∧ q % 2 = 1) then q + 1 else q
    let v := q2 * unit
    if v < 2 ^ 1024 then some v else none

/-- A JavaScript number as `parseInt` can produce it: `NaN`, a signed
`Infinity`, or a finite integer-valued double. -/
inductive JsNum where
  | nan : JsNum
  | inf : Bool → JsNum
  | fin : Int → JsNum
deriving Repr, DecidableEq

/-- JavaScript `isFinite`: false on `NaN` and on both infinities. -/
def isFinite : JsNum → Bool
  | .fin _ => true
  | _ => false

/-- The value of a finite JavaScript number, `none` for `NaN`/`Infinity`
(what `filter(isFinite)` followed by reading the number observes). -/
def finiteVal : JsNum → Option Int
  | .fin v => some v
  | _ => none

/-- `parseInt` after whitespace and sign handling: the digit prefix is
read exactly and rounded to a double; no digits at all is `NaN`. -/
def jsParseIntCore (neg : Bool) (ds : List Char) : JsNum :=
  if ds.isEmpty then .nan
  else
    match doubleOfNat (digitsVal ds) with
    | some v => .fin (if neg then -(v : Int) else (v : Int))
    | none => .inf neg

/-- JavaScript `parseInt(s, 10)`: skip leading whitespace, read an
optional sign and the longest prefix of decimal digits, and round the
resulting integer to an IEEE-754 double (`NaN` when no digits). -/
def jsParseInt (s : String) : JsNum :=
  match s.data.dropWhile jsWhitespace with
  | [] => .nan
  | c :: rest =>
    if c == '-' then jsParseIntCore true (rest.takeWhile Char.isDigit)
    else if c == '+' then jsParseIntCore false (rest.takeWhile Char.isDigit)
    else jsParseIntCore false ((c :: rest).takeWhile Char.isDigit)

/-- The regex `/^\d+$/` from the y-token validation: one or more ASCII
digits and nothing else. -/
def isDigits (s : String) : Bool :=
  !s.data.isEmpty && s.data.all Char.isDigit

/-- A y token the handler rejects: fails `/^\d+$/` and is neither
keyword (`years.some(y => !/^\d+$/.test(y) && y !== 'all' && y !== 'last')`). -/
def invalidYToken (y : String) : Bool :=
  !(isDigits y) && !(y == "all") && !(y == "last")

/-- `ParsedQuery` from src/index.ts.  `format` keeps the raw query value
(`req.query.format`), which past validation is absent, `""` or `"nested"`. -/
structure ParsedQuery where
  years : List Int
  fetchAll : Bool
  lastYear : Bool
  format : Option String
deriving Repr, DecidableEq

/-- Construction of the `ParsedQuery` literal (src/index.ts lines 82-87):
`years.map(y => parseInt(y, 10)).filter(isFinite)` is `filterMap` of the
finite parses — `filter(isFinite)` removes both the `NaN` of keyword or
malformed tokens and the `Infinity` of overlong digit tokens; `fetchAll`
is `years.includes('all') || years.length === 0`, `lastYear` is
`years.includes('last')`. -/
def resolveQuery (ys : List String) (format : Option String) : ParsedQuery :=
  { years := ys.filterMap (fun y => finiteVal (jsParseInt y))
    fetchAll := ys.contains "all" || ys.isEmpty
    lastYear := ys.contains "last"
    format := format }

/-- JSON array of integers as `JSON.stringify` renders it. -/
def jsonIntList (l : List Int) : String :=
  "[" ++ String.intercalate "," (l.map toString) ++ "]"

/-- JSON boolean. -/
def jsonBool (b : Bool) : String :=
  if b then "true" else "false"

/-- `JSON.stringify(query)` for a `ParsedQuery`: object-literal key order
`years, fetchAll, lastYear, format`; a property whose value is `undefined`
is omitted by `JSON.stringify`. -/
def stringifyQuery (q : ParsedQuery) : String :=
  "\x7b\"years\":" ++ jsonIntList q.years
    ++ ",\"fetchAll\":" ++ jsonBool q.fetchAll
    ++ ",\"lastYear\":" ++ jsonBool q.lastYear
    ++ (match q.format with
        | none => ""
        | some f => ",\"format\":\"" ++ f ++ "\"")
    ++ "\x7d"

/-- The cache key `` `${username}-${JSON.stringify(query)}` `` computed for
a token list and format value. -/
def cacheKey (username : String) (ys : List String) (format : Option String) : String :=
  username ++ "-" ++ stringifyQuery (resolveQuery ys format)

/-- The raw `y` query parameter: absent, a single string, or an array of
strings (`QueryParams` in src/index.ts). -/
abbrev YParam := Option (String ⊕ List String)

/-- `req.query.y != null ? (typeof req.query.y === 'string' ? [req.query.y] : req.query.y) : []`. -/
def yTokens : YParam → List String
  | none => []
  | some (.inl s) => [s]
  | some (.inr l) => l

/-- An incoming `GET /v4/:username` request: route parameter plus the two
recognised query parameters (`format` is the raw string value, so an empty
`?format=` is `some ""`). -/
structure Req where
  username : String
  y : YParam
  format : Option String
deriving Repr, DecidableEq

/-- Truthiness test `req.query.format && req.query.format !== 'nested'`
on an optional string: an absent value and the empty string are falsy. -/
def formatBad : Option String → Bool
  | none => false
  | some f => !(f == "") && !(f == "nested")

/-- Whether the handler sends the 400 for the `format` parameter. -/
def formatInvalid (req : Req) : Bool :=
  formatBad req.format

/-- The `ParsedQuery` a request resolves to. -/
def reqQuery (req : Req) : ParsedQuery :=
  resolveQuery (yTokens req.y) req.format

/-- The cache key a request resolves to. -/
def reqKey (req : Req) : String :=
  cacheKey req.username (yTokens req.y) req.format

/-- State of the process-wide `memory-cache` instance: for each key, the
stored value and its absolute expiry instant (milliseconds). -/
abbrev CacheState (α : Type) := List (String × α × Nat)

/-- The query the handler has constructed by line 87, as a function of the
request and of the request-scope state (cache contents and clock), `none`
when validation already returned a 400.  The cache and clock arguments are
in scope in the real handler; the definition records that the construction
never reads them. -/
def handlerQuery {α : Type} (req : Req) (_cache : CacheState α) (_now : Nat) : Option ParsedQuery :=
  if formatInvalid req then none
  else if (yTokens req.y).any invalidYToken then none
  else some (reqQuery req)

/-- `cache.get(key)`: the stored value when present and not yet expired
(`memory-cache` treats an entry as live while `expire >= Date.now()`),
otherwise `null`. -/
def cacheGet {α : Type} (c : CacheState α) (key : String) (now : Nat) : Option α :=
  match c.find? (fun e => e.1 == key) with
  | some (_, v, exp) => if now ≤ exp then some v else none
  | none => none

/-- `cache.put(key, value, ttl)`: replaces any previous entry for the key
and records the expiry instant `now + ttl`. -/
def cachePut {α : Type} (c : CacheState α) (key : String) (v : α) (exp : Nat) : CacheState α :=
  (key, v, exp) :: c.filter (fun e => !(e.1 == key))

/-- Outcome of `fetchContributionsForQuery(username, query)`: a response
value, a thrown `UserNotFoundError` carrying its message, or any other
thrown error carrying its message. -/
inductive FetchOutcome (α : Type) where
  | success : α → FetchOutcome α
  | userNotFound : String → FetchOutcome α
  | failure : String → FetchOutcome α
deriving Repr, DecidableEq

/-- The HTTP response the route produces.  `badRequest msg` is
`res.status(400).send({error: msg})`; `ok r` is `res.json(r)`;
`notFound msg` is `res.status(404).send({error: msg})`; `serverError msg`
is `next(new Error(msg))`, which the error-handler middleware at the
bottom of src/index.ts turns into `res.status(500).send({error: msg})`. -/
inductive HResult (α : Type) where
  | badRequest : String → HResult α
  | ok : α → HResult α
  | notFound : String → HResult α
  | serverError : String → HResult α
deriving Repr, DecidableEq

/-- Whether a response is the 400 `{error: msg}` rejection. -/
def isBadRequest {α : Type} : HResult α → Bool
  | .badRequest _ => true
  | _ => false

/-- The message wrapped around a non-`UserNotFoundError` failure:
`` `Unable to fetch contribution data of '${username}': ${error.message}.` ``. -/
def wrapError (username msg : String) : String :=
  "Unable to fetch contribution data of \x27" ++ username ++ "\x27: " ++ msg ++ "."

/-- One run of the `GET /v4/:username` handler: given the request, the
cache state, the current time and the fetch oracle, produce the response,
the cache state afterwards, and how many times `fetchContributionsForQuery`
was invoked. -/
def handle {α : Type} (req : Req) (c : CacheState α) (now : Nat)
    (fetch : String → ParsedQuery → FetchOutcome α) :
    HResult α × CacheState α × Nat :=
  if formatInvalid req then
    (.badRequest "Query parameter \x27format\x27 must be \x27nested\x27 or undefined", c, 0)
  else if (yTokens req.y).any invalidYToken then
    (.badRequest "Query parameter \x27y\x27 must be an integer, \x27all\x27 or \x27last\x27", c, 0)
  else
    match cacheGet c (reqKey req) now with
    | some v => (.ok v, c, 0)
    | none =>
      match fetch req.username (reqQuery req) with
      | .success resp => (.ok resp, cachePut c (reqKey req) resp (now + 1000 * 3600), 1)
      | .userNotFound msg => (.notFound msg, c, 1)
      | .failure msg => (.serverError (wrapError req.username msg), c, 1)

/-- Modelled from the spec: `src/errors.ts` (the `UserNotFoundError`
class) is not in the available sources; per the spec a missing user yields
a 404 "with an error message naming the username", so the message is
modelled as a fixed template around the username. -/
def userNotFoundMessage (username : String) : String :=
  "User \"" ++ username ++ "\" does not exist"

/-! ### Helper lemmas -/

/-- A decimal digit character is not `parseInt` whitespace and not a sign. -/
theorem isDigit_not_special (c : Char) (h : c.isDigit = true) :
    jsWhitespace c = false ∧ (c == '-') = false ∧ (c == '+') = false := by
  refine ⟨?_, ?_, ?_⟩
  · unfold jsWhitespace
    by_contra hw
    simp only [Bool.not_eq_false, Bool.or_eq_true, beq_iff_eq] at hw
    rcases hw with ((((h1 | h1) | h1) | h1) | h1) | h1 <;> subst h1 <;>
      exact absurd h (by decide)
  · by_contra hw
    simp only [Bool.not_eq_false, beq_iff_eq] at hw
    subst hw
    exact absurd h (by decide)
  · by_contra hw
    simp only [Bool.not_eq_false, beq_iff_eq] at hw
    subst hw
    exact absurd h (by decide)

/-- `takeWhile isDigit` keeps an all-digit list whole. -/
theorem takeWhile_digits_self (cs : List Char) (h : cs.all Char.isDigit = true) :
    cs.takeWhile Char.isDigit = cs := by
  induction cs with
  | nil => rfl
  | cons c t ih =>
    simp only [List.all_cons, Bool.and_eq_true] at h
    simp [List.takeWhile_cons_of_pos h.1, ih h.2]

/-- `parseInt(s, 10)` on a token matching `/^\d+$/` reads the whole
token, unsigned: it rounds the token's exact digit value to a double. -/
theorem jsParseInt_digits (s : String) (h : isDigits s = true) :
    jsParseInt s = jsParseIntCore false s.data := by
  unfold isDigits at h
  simp only [Bool.and_eq_true, Bool.not_eq_true'] at h
  obtain ⟨hne, hall⟩ := h
  unfold jsParseInt
  cases hd : s.data with
  | nil => rw [hd] at hne; simp at hne
  | cons c t =>
    rw [hd] at hall
    simp only [List.all_cons, Bool.and_eq_true] at hall
    obtain ⟨hc, ht⟩ := hall
    obtain ⟨hw, hminus, hplus⟩ := isDigit_not_special c hc
    have hdrop : List.dropWhile jsWhitespace (c :: t) = c :: t :=
      List.dropWhile_cons_of_neg (by simp [hw])
    have htake : List.takeWhile Char.isDigit (c :: t) = c :: t :=
      takeWhile_digits_self (c :: t) (by simp [List.all_cons, hc, ht])
    rw [hdrop]
    simp [hminus, hplus, htake]

/-- `parseInt` yields `NaN` on the keyword token `all`. -/
theorem jsParseInt_all : jsParseInt "all" = JsNum.nan := by decide

/-- `parseInt` yields `NaN` on the keyword token `last`. -/
theorem jsParseInt_last : jsParseInt "last" = JsNum.nan := by decide

/-- Integers below `2^53` are exactly representable as doubles. -/
theorem doubleOfNat_small (n : Nat) (h : n < 2 ^ 53) : doubleOfNat n = some n := by
  unfold doubleOfNat
  rw [if_pos h]

/-- A digit token whose exact value is below `2^53` parses to exactly
that finite value. -/
theorem jsParseInt_small (s : String) (h1 : isDigits s = true)
    (h2 : digitsVal s.data < 2 ^ 53) :
    finiteVal (jsParseInt s) = some ((digitsVal s.data : Nat) : Int) := by
  rw [jsParseInt_digits s h1]
  have hne : s.data.isEmpty = false := by
    unfold isDigits at h1
    simp only [Bool.and_eq_true, Bool.not_eq_true'] at h1
    exact h1.1
  simp [jsParseIntCore, hne, doubleOfNat_small _ h2, finiteVal]

/-- A token the validation accepts is an all-digit string or a keyword. -/
theorem valid_token_cases (y : String) (h : invalidYToken y = false) :
    isDigits y = true ∨ y = "all" ∨ y = "last" := by
  unfold invalidYToken at h
  cases hd : isDigits y with
  | true => exact Or.inl rfl
  | false =>
    right
    rw [hd] at h
    simp only [Bool.not_false, Bool.true_and, Bool.and_eq_false_imp, Bool.not_eq_false,
      Bool.not_eq_true, beq_iff_eq, beq_eq_false_iff_ne, ne_eq] at h
    by_cases hall : y = "all"
    · exact Or.inl hall
    · exact Or.inr (by simpa [hall] using h)

/-- Over a validated token list, `map parseInt` followed by the
`isFinite` filter touches exactly the digit tokens, in order: the
keyword tokens parse to `NaN` and drop out. -/
theorem filterMap_parse_valid (ys : List String)
    (h : ∀ y ∈ ys, invalidYToken y = false) :
    ys.filterMap (fun y => finiteVal (jsParseInt y))
      = (ys.filter isDigits).filterMap (fun y => finiteVal (jsParseInt y)) := by
  induction ys with
  | nil => rfl
  | cons y t ih =>
    have hy := h y (List.mem_cons_self y t)
    have ht : ∀ z ∈ t, invalidYToken z = false := fun z hz => h z (List.mem_cons_of_mem _ hz)
    rcases valid_token_cases y hy with hd | rfl | rfl
    · rw [List.filter_cons_of_pos hd]
      simp only [List.filterMap_cons]
      rw [ih ht]
    · rw [List.filter_cons_of_neg (by decide)]
      simp only [List.filterMap_cons, jsParseInt_all, finiteVal]
      exact ih ht
    · rw [List.filter_cons_of_neg (by decide)]
      simp only [List.filterMap_cons, jsParseInt_last, finiteVal]
      exact ih ht

/-- A freshly stored cache entry is returned while its expiry has not passed. -/
theorem cacheGet_put_same {α : Type} (c : CacheState α) (k : String) (v : α)
    (exp now : Nat) (h : now ≤ exp) :
    cacheGet (cachePut c k v exp) k now = some v := by
  unfold cacheGet cachePut
  simp [List.find?_cons, h]

/-! ### Claim theorems -/

/-- Claim C1, counterexample: the selector `y=2021&y=2021` is valid (both
tokens all-digit), yet the resolved `years` list is `[2021, 2021]`, which
is not duplicate-free — the handler performs no deduplication. -/
theorem years_distinct_cex :
    invalidYToken "2021" = false ∧
    (resolveQuery ["2021", "2021"] none).years = [2021, 2021] ∧
    ¬ List.Nodup (resolveQuery ["2021", "2021"] none).years := by
  exact ⟨by decide, by decide, by decide⟩

/-- Claim C1 (amended): for every valid selector, `fetchAll` is true iff
the token list is empty or contains `all`, `lastYear` is true iff it
contains `last`, and `years` lists, in input order with duplicates
preserved, the finite `parseInt` double of each numeric token — a token
parsing to `Infinity` (roughly 309 digits and more) is dropped by the
`isFinite` filter, and a numeric token whose exact value is below `2^53`
contributes exactly its integer value. -/
theorem resolved_query_invariants (ys : List String) (f : Option String)
    (h : ∀ y ∈ ys, invalidYToken y = false) :
    ((resolveQuery ys f).fetchAll = true ↔ (ys = [] ∨ "all" ∈ ys)) ∧
    ((resolveQuery ys f).lastYear = true ↔ "last" ∈ ys) ∧
    (resolveQuery ys f).years
      = (ys.filter isDigits).filterMap (fun s => finiteVal (jsParseInt s)) ∧
    (∀ s, isDigits s = true → digitsVal s.data < 2 ^ 53 →
      finiteVal (jsParseInt s) = some ((digitsVal s.data : Nat) : Int)) := by
  refine ⟨?_, ?_, filterMap_parse_valid ys h, fun s h1 h2 => jsParseInt_small s h1 h2⟩
  · simp [resolveQuery, List.isEmpty_iff, List.contains, List.elem_iff, or_comm]
  · simp [resolveQuery, List.contains, List.elem_iff]

/-- Claim C1 (amended), witness at the selector `y=2020&y=all`. -/
theorem resolved_query_invariants_witness :
    (resolveQuery ["2020", "all"] none).years = [(2020 : Int)] :=
  ((resolved_query_invariants ["2020", "all"] none (by decide)).2.2.1).trans (by decide)

set_option exponentiation.threshold 1100 in
/-- Claim C9, counterexample: `9007199254740993` (the integer `2^53 + 1`)
is a valid all-digit token, but `parseInt` returns the nearest double
`9007199254740992`, so duplicating the token stores the rounded value
twice and the exact token value zero times — `years` does not contain
that year once per occurrence. -/
theorem years_duplicates_cex :
    invalidYToken "9007199254740993" = false ∧
    (resolveQuery ["9007199254740993", "9007199254740993"] none).years
      = [(9007199254740992 : Int), 9007199254740992] ∧
    List.count (9007199254740993 : Int)
      (resolveQuery ["9007199254740993", "9007199254740993"] none).years = 0 := by
  exact ⟨by decide, by decide, by decide⟩

/-- Claim C9 (amended): no deduplication or reordering happens before the
query is serialized into the cache key — over a valid selector, `years`
is the numeric tokens in input order, each occurrence contributing its
finite parsed double value (so a value appears at least once per
occurrence of any token parsing finitely to it), while `Infinity` parses
of overlong tokens contribute nothing; the cache key serializes exactly
this resolved query. -/
theorem years_keep_duplicates (u : String) (ys : List String) (f : Option String)
    (h : ∀ y ∈ ys, invalidYToken y = false) :
    (resolveQuery ys f).years
      = (ys.filter isDigits).filterMap (fun s => finiteVal (jsParseInt s)) ∧
    (∀ s n, finiteVal (jsParseInt s) = some n →
      ys.count s ≤ (resolveQuery ys f).years.count n) ∧
    cacheKey u ys f = u ++ "-" ++ stringifyQuery (resolveQuery ys f) := by
  refine ⟨filterMap_parse_valid ys h, ?_, rfl⟩
  intro s n hg
  show ys.count s ≤ (ys.filterMap (fun y => finiteVal (jsParseInt y))).count n
  rw [List.count_filterMap, List.count_eq_countP]
  refine List.countP_mono_left ?_
  intro a _ ha
  have : a = s := by simpa using ha
  subst this
  simp [hg]

/-- Claim C9 (amended), witness: the duplicated selector `y=2021&y=2021`
keeps both occurrences in the resolved query. -/
theorem years_keep_duplicates_witness :
    (resolveQuery ["2021", "2021"] none).years = [(2021 : Int), 2021] :=
  ((years_keep_duplicates "alice" ["2021", "2021"] none (by decide)).1).trans (by decide)

/-- Claim C10: every nonempty all-ASCII-digit token passes the y
validation, and a leading zero does not change the parsed value: `02021`
and `2021` resolve to identical queries. -/
theorem digit_tokens_leading_zeros :
    (∀ s : String, s.data ≠ [] → s.data.all Char.isDigit = true →
      invalidYToken s = false) ∧
    jsParseInt "02021" = JsNum.fin 2021 ∧
    jsParseInt "2021" = JsNum.fin 2021 ∧
    resolveQuery ["02021"] none = resolveQuery ["2021"] none := by
  refine ⟨?_, by decide, by decide, by decide⟩
  intro s hne hall
  have hemp : s.data.isEmpty = false := by
    cases hd : s.data with
    | nil => exact absurd hd hne
    | cons c t => rfl
  simp [invalidYToken, isDigits, hemp, hall]

/-- Claim C10, witness at the token `007`. -/
theorem digit_tokens_leading_zeros_witness :
    invalidYToken "007" = false :=
  digit_tokens_leading_zeros.1 "007" (by decide) (by decide)

/-- Claim C8: the query the handler constructs is a pure, deterministic
function of the y tokens and the format parameter alone — two requests
agreeing on those resolve to equal `ParsedQuery` values irrespective of
the cache contents, the clock, or anything else in the request state. -/
theorem query_resolution_pure {α : Type} (r1 r2 : Req)
    (c1 c2 : CacheState α) (n1 n2 : Nat)
    (hy : yTokens r1.y = yTokens r2.y) (hf : r1.format = r2.format) :
    handlerQuery r1 c1 n1 = handlerQuery r2 c2 n2 := by
  unfold handlerQuery formatInvalid reqQuery
  rw [hy, hf]

/-- Claim C8, witness: a single-string y parameter and a one-element
array, with different usernames, clocks and cache states, resolve
identically. -/
theorem query_resolution_pure_witness :
    handlerQuery (α := Nat) ⟨"alice", some (Sum.inl "2020"), none⟩ [] 0
      = handlerQuery ⟨"bob", some (Sum.inr ["2020"]), none⟩ [("k", 5, 99)] 123 :=
  query_resolution_pure _ _ _ _ _ _ rfl rfl

/-- Claim C2, counterexample: the selectors `y=2021&y=2022` and
`y=2022&y=2021` hold the same set of tokens (they are permutations of one
another), yet their cache keys differ, because the `years` array is
serialized in input order. -/
theorem cache_key_order_cex :
    List.Perm ["2021", "2022"] ["2022", "2021"] ∧
    cacheKey "alice" ["2021", "2022"] none ≠ cacheKey "alice" ["2022", "2021"] none := by
  exact ⟨by decide, by decide⟩

/-- Claim C2 (amended): two selectors yield the same cache key when they
agree on the presence of `all`, the presence of `last`, emptiness, and
the exact sequence of parsed numeric values (order and multiplicity
included); agreement as token sets is not sufficient. -/
theorem cache_key_agreement (u : String) (ys1 ys2 : List String) (f : Option String)
    (hnum : ys1.filterMap (fun y => finiteVal (jsParseInt y))
          = ys2.filterMap (fun y => finiteVal (jsParseInt y)))
    (hall : ys1.contains "all" = ys2.contains "all")
    (hlast : ys1.contains "last" = ys2.contains "last")
    (hemp : ys1.isEmpty = ys2.isEmpty) :
    cacheKey u ys1 f = cacheKey u ys2 f := by
  unfold cacheKey
  have hq : resolveQuery ys1 f = resolveQuery ys2 f := by
    unfold resolveQuery
    rw [hnum, hall, hlast, hemp]
  rw [hq]

/-- Claim C2 (amended), witness: repeating and moving the keyword `all`
leaves the key unchanged. -/
theorem cache_key_agreement_witness :
    cacheKey "alice" ["all", "2020"] none = cacheKey "alice" ["2020", "all", "all"] none :=
  cache_key_agreement "alice" ["all", "2020"] ["2020", "all", "all"] none
    (by decide) (by decide) (by decide) (by decide)

/-- Claim C3, counterexample: `?format=` yields the empty string, which is
present and differs from `nested`, yet the truthiness test
`req.query.format && ...` skips the 400 — the request proceeds and the
fetch pipeline is invoked once. -/
theorem format_empty_cex :
    some "" ≠ some "nested" ∧
    (handle ⟨"alice", none, some ""⟩ ([] : CacheState Nat) 0
        (fun _ _ => FetchOutcome.success 7)).1 = HResult.ok 7 ∧
    (handle ⟨"alice", none, some ""⟩ ([] : CacheState Nat) 0
        (fun _ _ => FetchOutcome.success 7)).2.2 = 1 := by
  exact ⟨by decide, rfl, rfl⟩

/-- Claim C3 (amended): a request whose format parameter is present,
nonempty and different from `nested` (the empty string is treated as
absent by the truthiness test), or whose y parameters contain a token
that is not all-digit, `all` or `last`, is answered with the 400
`{error: ...}` rejection; the cache is untouched and
`fetchContributionsForQuery` is never invoked. -/
theorem invalid_input_400 {α : Type} (req : Req) (c : CacheState α) (now : Nat)
    (fetch : String → ParsedQuery → FetchOutcome α)
    (h : (∃ f, req.format = some f ∧ f ≠ "" ∧ f ≠ "nested") ∨
         (∃ y ∈ yTokens req.y, isDigits y = false ∧ y ≠ "all" ∧ y ≠ "last")) :
    isBadRequest (handle req c now fetch).1 = true ∧
    (handle req c now fetch).2.1 = c ∧
    (handle req c now fetch).2.2 = 0 := by
  by_cases hfi : formatInvalid req = true
  · refine ⟨?_, ?_, ?_⟩ <;> simp [handle, hfi, isBadRequest]
  · have hfi' : formatInvalid req = false := by simpa using hfi
    have hany : (yTokens req.y).any invalidYToken = true := by
      rcases h with ⟨f, hf, hne, hnn⟩ | ⟨y0, hy0, hdg, ha, hl⟩
      · exfalso
        apply hfi
        simp only [formatInvalid, formatBad, hf, Bool.and_eq_true, Bool.not_eq_true',
          beq_eq_false_iff_ne, ne_eq]
        exact ⟨hne, hnn⟩
      · refine List.any_eq_true.mpr ⟨y0, hy0, ?_⟩
        simp only [invalidYToken, hdg, Bool.not_false, Bool.true_and, Bool.and_eq_true,
          Bool.not_eq_true', beq_eq_false_iff_ne, ne_eq]
        exact ⟨ha, hl⟩
    refine ⟨?_, ?_, ?_⟩ <;> simp [handle, hfi', hany, isBadRequest]

/-- Claim C3 (amended), witness at the malformed token `20x1`. -/
theorem invalid_input_400_witness :
    isBadRequest (handle ⟨"alice", some (Sum.inl "20x1"), none⟩ ([] : CacheState Nat) 0
        (fun _ _ => FetchOutcome.failure "net")).1 = true ∧
    (handle ⟨"alice", some (Sum.inl "20x1"), none⟩ ([] : CacheState Nat) 0
        (fun _ _ => FetchOutcome.failure "net")).2.1 = [] ∧
    (handle ⟨"alice", some (Sum.inl "20x1"), none⟩ ([] : CacheState Nat) 0
        (fun _ _ => FetchOutcome.failure "net")).2.2 = 0 :=
  invalid_input_400 ⟨"alice", some (Sum.inl "20x1"), none⟩ [] 0
    (fun _ _ => FetchOutcome.failure "net")
    (Or.inr ⟨"20x1", by decide, by decide, by decide, by decide⟩)

/-- Claim C4: when `fetchContributionsForQuery` throws `UserNotFoundError`
(modelled message naming the username), the handler answers 404 with that
message as the `{error: ...}` body — not 500 — and the message contains
the username. -/
theorem user_not_found_404 {α : Type} (req : Req) (c : CacheState α) (now : Nat)
    (fetch : String → ParsedQuery → FetchOutcome α)
    (hfmt : formatInvalid req = false)
    (hy : (yTokens req.y).any invalidYToken = false)
    (hmiss : cacheGet c (reqKey req) now = none)
    (hf : fetch req.username (reqQuery req)
        = FetchOutcome.userNotFound (userNotFoundMessage req.username)) :
    handle req c now fetch
      = (HResult.notFound (userNotFoundMessage req.username), c, 1) ∧
    ∃ pre post, userNotFoundMessage req.username = pre ++ req.username ++ post := by
  refine ⟨?_, "User \"", "\" does not exist", ?_⟩
  · simp [handle, hfmt, hy, hmiss, hf]
  · simp [userNotFoundMessage, String.append_assoc]

/-- Claim C4, witness: a cold cache, a valid nested request and a
user-not-found oracle produce the 404. -/
theorem user_not_found_404_witness :
    handle (α := Nat) ⟨"alice", some (Sum.inr ["2020"]), some "nested"⟩ [] 0
        (fun u _ => FetchOutcome.userNotFound (userNotFoundMessage u))
      = (HResult.notFound (userNotFoundMessage "alice"), [], 1) :=
  (user_not_found_404 ⟨"alice", some (Sum.inr ["2020"]), some "nested"⟩ [] 0
    (fun u _ => FetchOutcome.userNotFound (userNotFoundMessage u))
    rfl rfl rfl rfl).1

/-- Claim C5: any other pipeline failure is answered 500 with the fixed
summary template around the cause message, never the raw cause itself:
the body string always differs from the underlying message. -/
theorem other_failure_500 {α : Type} (req : Req) (c : CacheState α) (now : Nat)
    (fetch : String → ParsedQuery → FetchOutcome α) (msg : String)
    (hfmt : formatInvalid req = false)
    (hy : (yTokens req.y).any invalidYToken = false)
    (hmiss : cacheGet c (reqKey req) now = none)
    (hf : fetch req.username (reqQuery req) = FetchOutcome.failure msg) :
    handle req c now fetch
      = (HResult.serverError (wrapError req.username msg), c, 1) ∧
    wrapError req.username msg ≠ msg := by
  refine ⟨by simp [handle, hfmt, hy, hmiss, hf], ?_⟩
  intro he
  have hlen := congrArg String.length he
  simp only [wrapError, String.length_append] at hlen
  have h1 : 0 < ("Unable to fetch contribution data of \x27" : String).length := by decide
  have h2 : 0 < ("\x27: " : String).length := by decide
  have h3 : 0 < ("." : String).length := by decide
  omega

/-- Claim C5, witness: a transport failure message is wrapped into the
500 summary. -/
theorem other_failure_500_witness :
    handle (α := Nat) ⟨"alice", none, none⟩ [] 0
        (fun _ _ => FetchOutcome.failure "socket hang up")
      = (HResult.serverError (wrapError "alice" "socket hang up"), [], 1) :=
  (other_failure_500 ⟨"alice", none, none⟩ [] 0
    (fun _ _ => FetchOutcome.failure "socket hang up") "socket hang up"
    rfl rfl rfl rfl).1

/-- Claim C6: when the first of two identical requests misses the cache
and the pipeline succeeds, the second request within the one-hour TTL
window returns the identical response out of the cache: the fetch runs
once on the first request and zero times on the second. -/
theorem cache_idempotence {α : Type} (req : Req) (c : CacheState α) (now now2 : Nat)
    (fetch : String → ParsedQuery → FetchOutcome α) (resp : α)
    (hfmt : formatInvalid req = false)
    (hy : (yTokens req.y).any invalidYToken = false)
    (hmiss : cacheGet c (reqKey req) now = none)
    (hf : fetch req.username (reqQuery req) = FetchOutcome.success resp)
    (hwin : now2 ≤ now + 1000 * 3600) :
    handle req c now fetch
      = (HResult.ok resp, cachePut c (reqKey req) resp (now + 1000 * 3600), 1) ∧
    handle req (cachePut c (reqKey req) resp (now + 1000 * 3600)) now2 fetch
      = (HResult.ok resp, cachePut c (reqKey req) resp (now + 1000 * 3600), 0) := by
  constructor
  · simp [handle, hfmt, hy, hmiss, hf]
  · simp [handle, hfmt, hy, cacheGet_put_same c (reqKey req) resp _ now2 hwin]

/-- Claim C6, witness: a repeat of the same request 30 minutes later is
served from the cache without a second fetch. -/
theorem cache_idempotence_witness :
    handle (α := Nat) ⟨"alice", some (Sum.inl "2020"), none⟩
        (cachePut [] (reqKey ⟨"alice", some (Sum.inl "2020"), none⟩) 7 3600000) 1800000
        (fun _ _ => FetchOutcome.success 7)
      = (HResult.ok 7,
          cachePut [] (reqKey ⟨"alice", some (Sum.inl "2020"), none⟩) 7 3600000, 0) :=
  (cache_idempotence ⟨"alice", some (Sum.inl "2020"), none⟩ [] 0 1800000
    (fun _ _ => FetchOutcome.success 7) 7 rfl rfl rfl rfl (by omega)).2

/-- Claim C7: the handler stores a cache entry only when the fetch
returns successfully, and then with expiry exactly one hour after the
current instant; when the fetch throws (user not found or otherwise) the
cache state is left unchanged. -/
theorem cache_store_discipline {α : Type} (req : Req) (c : CacheState α) (now : Nat)
    (fetch : String → ParsedQuery → FetchOutcome α) :
    (∀ m, fetch req.username (reqQuery req) = FetchOutcome.userNotFound m →
      (handle req c now fetch).2.1 = c) ∧
    (∀ m, fetch req.username (reqQuery req) = FetchOutcome.failure m →
      (handle req c now fetch).2.1 = c) ∧
    ((handle req c now fetch).2.1 ≠ c →
      ∃ resp, fetch req.username (reqQuery req) = FetchOutcome.success resp ∧
        (handle req c now fetch).2.1 = cachePut c (reqKey req) resp (now + 1000 * 3600)) := by
  refine ⟨?_, ?_, ?_⟩
  · intro m hm
    unfold handle
    split
    · rfl
    · split
      · rfl
      · split
        · rfl
        · rw [hm]
  · intro m hm
    unfold handle
    split
    · rfl
    · split
      · rfl
      · split
        · rfl
        · rw [hm]
  · intro hne
    by_cases h1 : formatInvalid req = true
    · exact absurd (by simp [handle, h1]) hne
    · have h1' : formatInvalid req = false := by simpa using h1
      by_cases h2 : (yTokens req.y).any invalidYToken = true
      · exact absurd (by simp [handle, h1', h2]) hne
      · have h2' : (yTokens req.y).any invalidYToken = false := by simpa using h2
        rcases hg : cacheGet c (reqKey req) now with _ | v
        · rcases ho : fetch req.username (reqQuery req) with resp | m | m
          · exact ⟨resp, rfl, by simp [handle, h1', h2', hg, ho]⟩
          · exact absurd (by simp [handle, h1', h2', hg, ho]) hne
          · exact absurd (by simp [handle, h1', h2', hg, ho]) hne
        · exact absurd (by simp [handle, h1', h2', hg]) hne

/-- Claim C7, witness: a failing fetch leaves an empty cache empty. -/
theorem cache_store_discipline_witness :
    (handle (α := Nat) ⟨"alice", none, none⟩ [] 0
      (fun _ _ => FetchOutcome.failure "boom")).2.1 = [] :=
  (cache_store_discipline ⟨"alice", none, none⟩ [] 0
    (fun _ _ => FetchOutcome.failure "boom")).2.1 "boom" rfl

end GhContrib
